import Mathlib

/-
Verification of the core algorithms of the zeplin-frontend-validation
repository: the defect locator (validator/views.py), the image differ and
region clusterer (validator/services/comparison_service.py), and the CSS
validation service (validator/services/css_validation_service.py).

Python dictionaries with a fixed key set are embedded as structures; keys
that a producer may omit are embedded as `Option` fields, and `dict.get`
with a default becomes `Option.getD`.  Machine integers are `Nat`/`Int`
(Python integers are unbounded, so no wrap-around modelling is needed);
browser geometry values, which are produced by `getBoundingClientRect` and
may be fractional, are embedded as `Rat`.
-/

set_option autoImplicit false
set_option maxRecDepth 100000

namespace ZeplinValidation

/-! ## String helpers

Executable embeddings of the Python/JavaScript string primitives the
source uses (`str.strip`, `str.replace('"', '\\"')`, `split(' ')`). -/

/-- `str.strip()` / JS `trim()`: drop leading and trailing whitespace. -/
def py_strip (s : String) : String :=
  String.mk (((s.data.dropWhile Char.isWhitespace).reverse.dropWhile Char.isWhitespace).reverse)

/-- `.replace('"', '\\"')`: escape every double quote. -/
def py_replace_quote (s : String) : String :=
  String.mk (s.data.flatMap (fun c => if c = '"' then ['\\', '"'] else [c]))

/-- Split a character list at every occurrence of `sep` (JS
`split(sep)` semantics: adjacent separators yield empty fields). -/
def split_chars (sep : Char) : List Char → List (List Char)
  | [] => [[]]
  | c :: cs =>
    let r := split_chars sep cs
    if c = sep then [] :: r
    else
      match r with
      | h :: t => (c :: h) :: t
      | [] => [[c]]

/-- JS `s.split(' ')`. -/
def split_on_space (s : String) : List String :=
  (split_chars ' ' s.data).map String.mk

/-- JS `toLowerCase()` / Python `str.lower()` on ASCII. -/
def str_to_lower (s : String) : String := String.mk (s.data.map Char.toLower)

/-- Python `str.upper()` on ASCII. -/
def str_to_upper (s : String) : String := String.mk (s.data.map Char.toUpper)

/-! ## Data model: defects

A defect record, as produced by `CSSValidationService` and consumed by the
locator views.  Fields that some producers omit (the Zeplin cross-check
defects carry no `selector`, `location`, `severity`, `description` or
`css_fix` key) are `Option`s. -/

structure Defect where
  element : String
  property : String
  expected : String
  actual : String
  source : String
  status : String
  selector : Option String
  location : Option String
  severity : Option String
  description : Option String
  css_fix : Option String
deriving DecidableEq

instance : Inhabited Defect :=
  ⟨{ element := "", property := "", expected := "", actual := "", source := "",
     status := "", selector := none, location := none, severity := none,
     description := none, css_fix := none }⟩

/-! ## Digit-run extraction

`re.findall(r'(\d+)', location)` followed by `int(...)` on each run:
all maximal runs of decimal digits of the string, left to right, each
interpreted as a natural number. -/

def digit_runs_aux : List Char → Option ℕ → List ℕ
  | [], none => []
  | [], some n => [n]
  | c :: cs, acc =>
    if c.isDigit then
      digit_runs_aux cs (some ((acc.getD 0) * 10 + (c.toNat - '0'.toNat)))
    else
      match acc with
      | none => digit_runs_aux cs none
      | some n => n :: digit_runs_aux cs none

def digit_runs (s : String) : List ℕ :=
  digit_runs_aux s.toList none

/-! ## Defect locator (validator/views.py)

`LocateDefectView.get_context_data` parses a defect's free-form location
string into a rectangle, pads it, and derives a label anchor and a
severity colour class. -/

structure ParsedLoc where
  x : ℤ
  y : ℤ
  w : ℤ
  h : ℤ
deriving DecidableEq

/-- Parse of `LocateDefectView`: defaults `x, y, w, h = 0, 0, 200, 50`,
overwritten from the digit runs of the location string when at least four
(resp. at least two) runs are present. -/
def parse_loc_default (loc : String) : ParsedLoc :=
  if loc = "" then ⟨0, 0, 200, 50⟩
  else
    match digit_runs loc with
    | a :: b :: c :: d :: _ => ⟨(a : ℤ), (b : ℤ), (c : ℤ), (d : ℤ)⟩
    | a :: b :: _ => ⟨(a : ℤ), (b : ℤ), 200, 50⟩
    | _ => ⟨0, 0, 200, 50⟩

/-- Parse of `LocateAllDefectsView`: identical except that the defaults are
`x, y, w, h = 0, 0, 0, 0`. -/
def parse_loc_zero (loc : String) : ParsedLoc :=
  if loc = "" then ⟨0, 0, 0, 0⟩
  else
    match digit_runs loc with
    | a :: b :: c :: d :: _ => ⟨(a : ℤ), (b : ℤ), (c : ℤ), (d : ℤ)⟩
    | a :: b :: _ => ⟨(a : ℤ), (b : ℤ), 0, 0⟩
    | _ => ⟨0, 0, 0, 0⟩

def color_map : List (String × String) :=
  [("critical", "danger"), ("high", "warning"), ("medium", "info")]

/-- `color_map.get(severity, 'info')`. -/
def severity_color (sev : String) : String :=
  (color_map.lookup sev).getD "info"

structure LocatedSingle where
  x : ℤ
  y : ℤ
  w : ℤ
  h : ℤ
  label_y : ℤ
  color_cls : String
deriving DecidableEq

/-- `LocateDefectView.get_context_data`, per-defect part: parse the
location (with `defect.get('location', '')`), apply the 2px outward
padding with floor at 0, derive the label anchor and the colour class
(severity read with `defect.get('severity', 'medium')`). -/
def locate_defect (d : Defect) : LocatedSingle :=
  let p := parse_loc_default (d.location.getD "")
  { x := max (p.x - 2) 0
    y := max (p.y - 2) 0
    w := p.w + 4
    h := p.h + 4
    label_y := max (p.y - 24) 0
    color_cls := severity_color (d.severity.getD "medium") }

/-- C3, claim side: parse all integer runs left to right; with at least 4
numbers take `(x, y, w, h)`; with exactly 2 or 3 take `(x, y)` and default
width and height to 200 and 50; otherwise default to `(0, 0, 200, 50)`;
then pad by 2px floored at 0, anchor the label at `max (y - 24) 0`, and
map severity critical to danger, high to warning, medium or unknown to
info. -/
def locate_defect_claim (d : Defect) : LocatedSingle :=
  let runs := digit_runs (d.location.getD "")
  let p : ParsedLoc :=
    if 4 ≤ runs.length then
      ⟨(runs.getD 0 0 : ℤ), (runs.getD 1 0 : ℤ), (runs.getD 2 0 : ℤ), (runs.getD 3 0 : ℤ)⟩
    else if 2 ≤ runs.length ∧ runs.length ≤ 3 then
      ⟨(runs.getD 0 0 : ℤ), (runs.getD 1 0 : ℤ), 200, 50⟩
    else ⟨0, 0, 200, 50⟩
  let sev := d.severity.getD "medium"
  { x := max (p.x - 2) 0
    y := max (p.y - 2) 0
    w := p.w + 4
    h := p.h + 4
    label_y := max (p.y - 24) 0
    color_cls :=
      if sev = "critical" then "danger"
      else if sev = "high" then "warning"
      else "info" }

/-! ## Batch defect locator (`LocateAllDefectsView.get_context_data`) -/

structure LocatedDefect where
  idx : ℕ
  defect : Defect
  x : ℤ
  y : ℤ
  w : ℤ
  h : ℤ
  label_y : ℤ
  color_cls : String
deriving DecidableEq

def mk_located (idx : ℕ) (d : Defect) (p : ParsedLoc) : LocatedDefect :=
  { idx := idx
    defect := d
    x := max (p.x - 2) 0
    y := max (p.y - 2) 0
    w := p.w + 4
    h := p.h + 4
    label_y := max (p.y - 24) 0
    color_cls := severity_color (d.severity.getD "medium") }

/-- `LocateAllDefectsView.get_context_data`: enumerate the defects, parse
each location with all-zero defaults, and keep (in order, with the
original index) exactly those whose parsed `w` and `h` are positive. -/
def locate_all (defects : List Defect) : List LocatedDefect :=
  defects.enum.flatMap (fun pr =>
    let p := parse_loc_zero (pr.2.location.getD "")
    if 0 < p.w ∧ 0 < p.h then [mk_located pr.1 pr.2 p] else [])

/-- C1, claim side: the batch locator resolves every defect with the same
per-item rule as the single locator (`parse_loc_default`, so 2 or 3 digit
runs give `(x, y)` with width and height defaulted to 200 and 50) and then
drops exactly the defects whose resolved width or height is at most 0,
preserving input order and recording the original index. -/
def locate_all_claim (defects : List Defect) : List LocatedDefect :=
  defects.enum.flatMap (fun pr =>
    let p := parse_loc_default (pr.2.location.getD "")
    if p.w ≤ 0 ∨ p.h ≤ 0 then [] else [mk_located pr.1 pr.2 p])

/-- C1, amended claim side: the batch locator parses integer runs like the
single locator except that fewer than four runs leave width and height at
0; it keeps, in input order and with the original index recorded, exactly
the defects whose location yields at least four digit runs with positive
third and fourth run. -/
def locate_all_amended (defects : List Defect) : List LocatedDefect :=
  defects.enum.flatMap (fun pr =>
    let runs := digit_runs (pr.2.location.getD "")
    if 4 ≤ runs.length ∧ 0 < runs.getD 2 0 ∧ 0 < runs.getD 3 0 then
      [mk_located pr.1 pr.2
        ⟨(runs.getD 0 0 : ℤ), (runs.getD 1 0 : ℤ), (runs.getD 2 0 : ℤ), (runs.getD 3 0 : ℤ)⟩]
    else [])

/-- A defect whose location string holds exactly two integer runs. -/
def two_run_defect : Defect :=
  { element := "Zeplin Layer: header", property := "font-size", expected := "16px",
    actual := "18px", source := "audit", status := "FAIL", selector := some "h1",
    location := some "(10, 20)", severity := some "high",
    description := some "Font size mismatch.", css_fix := none }

theorem locate_all_ext (f g : ℕ × Defect → List LocatedDefect)
    (hfg : ∀ p, f p = g p) (l : List (ℕ × Defect)) :
    l.flatMap f = l.flatMap g := by
  induction l with
  | nil => rfl
  | cons a t ih => simp [List.flatMap_cons, hfg a, ih]

theorem digit_runs_empty : digit_runs "" = [] := rfl

theorem severity_color_spec (s : String) :
    severity_color s =
      if s = "critical" then "danger" else if s = "high" then "warning" else "info" := by
  simp only [severity_color, color_map, List.lookup]
  by_cases h1 : s = "critical"
  · simp [h1]
  · have e1 : (s == "critical") = false := beq_eq_false_iff_ne.mpr h1
    by_cases h2 : s = "high"
    · simp [e1, h2, h1]
    · have e2 : (s == "high") = false := beq_eq_false_iff_ne.mpr h2
      by_cases h3 : s = "medium"
      · simp [e1, e2, h3, h1, h2]
      · have e3 : (s == "medium") = false := beq_eq_false_iff_ne.mpr h3
        simp [e1, e2, e3, h1, h2, h3]

theorem parse_loc_default_spec (loc : String) :
    parse_loc_default loc =
      (if 4 ≤ (digit_runs loc).length then
        ⟨((digit_runs loc).getD 0 0 : ℤ), ((digit_runs loc).getD 1 0 : ℤ),
          ((digit_runs loc).getD 2 0 : ℤ), ((digit_runs loc).getD 3 0 : ℤ)⟩
      else if 2 ≤ (digit_runs loc).length ∧ (digit_runs loc).length ≤ 3 then
        ⟨((digit_runs loc).getD 0 0 : ℤ), ((digit_runs loc).getD 1 0 : ℤ), 200, 50⟩
      else ⟨0, 0, 200, 50⟩) := by
  by_cases hloc : loc = ""
  · subst hloc
    simp [parse_loc_default, digit_runs_empty]
  · unfold parse_loc_default
    rcases hruns : digit_runs loc with _ | ⟨a, _ | ⟨b, _ | ⟨c, _ | ⟨e, rest⟩⟩⟩⟩ <;>
      simp [hloc, List.getD]

/-- C3: the single defect locator parses all integer runs of the location
left to right; at least 4 runs give `(x, y, w, h)`, 2 or 3 runs give
`(x, y)` with width and height defaulted to 200 and 50, and none gives
`(0, 0, 200, 50)`; it returns `max (x-2) 0`, `max (y-2) 0`, `w+4`, `h+4`,
label anchor `max (y-24) 0`, and maps severity critical to danger, high to
warning, medium or unknown to info.  In particular location
`"(100, 200) — 50x30px"` resolves to `x=98, y=198, w=54, h=34,
labelY=176`, and location `"(1,1) — 10x10px"` resolves to clamped
`x=0, y=0`. -/
theorem c3_locator :
    (∀ d : Defect, locate_defect d = locate_defect_claim d) ∧
    locate_defect { two_run_defect with location := some "(100, 200) — 50x30px" } =
      { x := 98, y := 198, w := 54, h := 34, label_y := 176, color_cls := "warning" } ∧
    (locate_defect { two_run_defect with location := some "(1,1) — 10x10px" }).x = 0 ∧
    (locate_defect { two_run_defect with location := some "(1,1) — 10x10px" }).y = 0 := by
  refine ⟨?_, by decide, by decide, by decide⟩
  intro d
  simp only [locate_defect, locate_defect_claim, parse_loc_default_spec, severity_color_spec]

/-- C1 counterexample: the defect `two_run_defect`, whose location
`"(10, 20)"` holds exactly two integer runs, is dropped by the batch
locator (`locate_all` yields the empty list), although the claimed
per-item rule resolves it to width 200 and height 50 and therefore keeps
it (`locate_all_claim` yields it). -/
theorem c1_counterexample :
    locate_all [two_run_defect] = [] ∧
    locate_all_claim [two_run_defect] =
      [mk_located 0 two_run_defect ⟨10, 20, 200, 50⟩] := by
  constructor <;> rfl

/-- C1 amended: the batch defect locator parses each defect's location
like the single locator except that width and height default to 0 (not
200 and 50) when fewer than four integer runs are present; it keeps
exactly the defects whose parsed width and height are both positive
(equivalently, whose location yields at least four integer runs with
positive third and fourth run), preserving the input order with each kept
defect's original index recorded. -/
theorem c1_amended (defects : List Defect) :
    locate_all defects = locate_all_amended defects := by
  unfold locate_all locate_all_amended
  apply locate_all_ext
  intro pr
  unfold parse_loc_zero
  by_cases hloc : pr.2.location.getD "" = ""
  · simp [hloc, digit_runs_empty]
  · rcases hruns : digit_runs (pr.2.location.getD "") with _ | ⟨a, _ | ⟨b, _ | ⟨c, _ | ⟨e, rest⟩⟩⟩⟩ <;>
      simp [hloc, hruns, List.getD]

/-! ## Region clusterer (validator/services/comparison_service.py)

`ComparisonService._find_mismatch_regions` scans the flat RGBA diff
buffer, collects the origins of the `region_size`-aligned grid cells that
contain a highlighted pixel into a set, and emits one clipped bounding box
per cell in ascending `(x, y)` order. -/

structure Pixel where
  r : ℕ
  g : ℕ
  b : ℕ
  a : ℕ
deriving DecidableEq

/-- `pixel[0] > 200 and pixel[1] < 50 and pixel[2] < 50 and pixel[3] > 0`. -/
def is_diff_highlight (p : Pixel) : Prop :=
  200 < p.r ∧ p.g < 50 ∧ p.b < 50 ∧ 0 < p.a

instance (p : Pixel) : Decidable (is_diff_highlight p) := by
  unfold is_diff_highlight; infer_instance

structure Region where
  x : ℕ
  y : ℕ
  width : ℕ
  height : ℕ
deriving DecidableEq

/-- The pixel scan of `_find_mismatch_regions`: for every pixel of the
`width × height` canvas (row-major index `y * width + x` into the flat
buffer), record the grid-cell origin
`((x // region_size) * region_size, (y // region_size) * region_size)`
when the pixel matches the highlight convention. -/
def mismatch_blocks_list (diff_data : ℕ → Pixel) (width height region_size : ℕ) :
    List (ℕ × ℕ) :=
  (List.range height).flatMap (fun y =>
    (List.range width).flatMap (fun x =>
      if is_diff_highlight (diff_data (y * width + x)) then
        [((x / region_size) * region_size, (y / region_size) * region_size)]
      else []))

/-- Ascending `(x, y)` order on cell origins, as `sorted` orders Python
tuples. -/
def block_le (a b : ℕ × ℕ) : Prop :=
  a.1 < b.1 ∨ (a.1 = b.1 ∧ a.2 ≤ b.2)

instance : DecidableRel block_le := fun a b =>
  inferInstanceAs (Decidable (a.1 < b.1 ∨ (a.1 = b.1 ∧ a.2 ≤ b.2)))

instance : IsTrans (ℕ × ℕ) block_le :=
  ⟨by intro a b c hab hbc; unfold block_le at *; omega⟩

instance : IsAntisymm (ℕ × ℕ) block_le :=
  ⟨by
    intro a b hab hba
    rcases a with ⟨a1, a2⟩
    rcases b with ⟨b1, b2⟩
    unfold block_le at *
    simp only [Prod.mk.injEq]
    omega⟩

instance : IsTotal (ℕ × ℕ) block_le :=
  ⟨by intro a b; unfold block_le; omega⟩

def mk_region (width height region_size : ℕ) (b : ℕ × ℕ) : Region :=
  { x := b.1, y := b.2,
    width := min region_size (width - b.1),
    height := min region_size (height - b.2) }

/-- `_find_mismatch_regions(diff_data, width, height, region_size=50)`:
deduplicate the flagged cell origins (the Python `set`), sort them
ascending, and emit one bounding box per cell, clipped to the canvas.
Python defaults `region_size` to 50 and every caller relies on the
default, so callers here pass 50 explicitly. -/
def find_mismatch_regions (diff_data : ℕ → Pixel) (width height : ℕ)
    (region_size : ℕ) : List Region :=
  ((mismatch_blocks_list diff_data width height region_size).toFinset.sort block_le).map
    (mk_region width height region_size)

/-- The bounds test of claim C4: `x ∈ [r.x, r.x + r.width)` and
`y ∈ [r.y, r.y + r.height)`. -/
def region_contains (r : Region) (x y : ℕ) : Prop :=
  r.x ≤ x ∧ x < r.x + r.width ∧ r.y ≤ y ∧ y < r.y + r.height

instance (r : Region) (x y : ℕ) : Decidable (region_contains r x y) := by
  unfold region_contains; infer_instance

theorem mem_mismatch_blocks_list {diff_data : ℕ → Pixel} {width height region_size : ℕ}
    {b : ℕ × ℕ} :
    b ∈ mismatch_blocks_list diff_data width height region_size ↔
      ∃ x y, x < width ∧ y < height ∧ is_diff_highlight (diff_data (y * width + x)) ∧
        b = ((x / region_size) * region_size, (y / region_size) * region_size) := by
  unfold mismatch_blocks_list
  simp only [List.mem_flatMap, List.mem_range]
  constructor
  · rintro ⟨y, hy, x, hx, hb⟩
    by_cases hhl : is_diff_highlight (diff_data (y * width + x))
    · rw [if_pos hhl] at hb
      simp only [List.mem_singleton] at hb
      exact ⟨x, y, hx, hy, hhl, hb⟩
    · rw [if_neg hhl] at hb
      simp at hb
  · rintro ⟨x, y, hx, hy, hhl, hb⟩
    exact ⟨y, hy, x, hx, by rw [if_pos hhl]; simp [hb]⟩

theorem block_of_div (x region_size : ℕ) (hrs : 0 < region_size) :
    (x / region_size) * region_size ≤ x ∧ x < (x / region_size) * region_size + region_size := by
  have h1 := Nat.div_add_mod x region_size
  have h2 := Nat.mod_lt x hrs
  constructor
  · calc (x / region_size) * region_size = region_size * (x / region_size) := Nat.mul_comm _ _
    _ ≤ x := by omega
  · have : region_size * (x / region_size) + region_size > x := by omega
    calc x < region_size * (x / region_size) + region_size := this
    _ = (x / region_size) * region_size + region_size := by rw [Nat.mul_comm]

theorem block_unique (x k region_size : ℕ) (hrs : 0 < region_size)
    (hlo : k * region_size ≤ x) (hhi : x < k * region_size + region_size) :
    k = x / region_size := by
  have hk : k ≤ x / region_size := (Nat.le_div_iff_mul_le hrs).mpr hlo
  have hk2 : x / region_size < k + 1 := by
    rw [Nat.div_lt_iff_lt_mul hrs]
    calc x < k * region_size + region_size := hhi
    _ = (k + 1) * region_size := by ring
  omega

theorem filter_eq_singleton_of_nodup {α : Type} {l : List α} {q : α → Bool} {b : α}
    (hn : l.Nodup) (hb : b ∈ l) (hq : ∀ a ∈ l, q a = true ↔ a = b) :
    l.filter q = [b] := by
  induction l with
  | nil => simp at hb
  | cons a t ih =>
    rcases List.nodup_cons.mp hn with ⟨hat, hnt⟩
    by_cases hab : a = b
    · subst hab
      have hqa : q a = true := (hq a (List.mem_cons_self a t)).mpr rfl
      have ht : t.filter q = [] := by
        apply List.filter_eq_nil_iff.mpr
        intro c hc
        intro hqc
        exact hat ((hq c (List.mem_cons_of_mem a hc)).mp hqc ▸ hc)
      simp [List.filter_cons, hqa, ht]
    · have hqa : q a = false := by
        rcases Bool.eq_false_or_eq_true (q a) with h | h
        · exact absurd ((hq a (List.mem_cons_self a t)).mp h) hab
        · exact h
      have hbt : b ∈ t := by
        rcases List.mem_cons.mp hb with h | h
        · exact absurd h.symm hab
        · exact h
      simp only [List.filter_cons, hqa]
      exact ih hnt hbt (fun c hc => hq c (List.mem_cons_of_mem a hc))

/-- The cell origin of the pixel `(x, y)` is the unique sorted block whose
emitted region contains the pixel. -/
theorem sorted_blocks_filter (diff_data : ℕ → Pixel) (width height region_size x y : ℕ)
    (hrs : 0 < region_size) (hx : x < width) (hy : y < height)
    (hm : is_diff_highlight (diff_data (y * width + x))) :
    ((mismatch_blocks_list diff_data width height region_size).toFinset.sort block_le).filter
        (fun b => decide (region_contains (mk_region width height region_size b) x y)) =
      [((x / region_size) * region_size, (y / region_size) * region_size)] := by
  apply filter_eq_singleton_of_nodup (Finset.sort_nodup _ _)
  · rw [Finset.mem_sort, List.mem_toFinset, mem_mismatch_blocks_list]
    exact ⟨x, y, hx, hy, hm, rfl⟩
  · intro b hb
    rw [Finset.mem_sort, List.mem_toFinset, mem_mismatch_blocks_list] at hb
    rcases hb with ⟨x', y', hx', hy', _, hbv⟩
    simp only [decide_eq_true_eq]
    have hb1 : b.1 = (x' / region_size) * region_size := by rw [hbv]
    have hb2 : b.2 = (y' / region_size) * region_size := by rw [hbv]
    constructor
    · rintro ⟨hcx1, hcx2, hcy1, hcy2⟩
      have hbw : b.1 ≤ width := by
        have := (block_of_div x' region_size hrs).1
        omega
      have hbh : b.2 ≤ height := by
        have := (block_of_div y' region_size hrs).1
        omega
      simp only [mk_region] at hcx1 hcx2 hcy1 hcy2
      have hxin : b.1 ≤ x ∧ x < b.1 + region_size := by
        constructor
        · exact hcx1
        · have : x < b.1 + min region_size (width - b.1) := hcx2
          omega
      have hyin : b.2 ≤ y ∧ y < b.2 + region_size := by
        constructor
        · exact hcy1
        · have : y < b.2 + min region_size (height - b.2) := hcy2
          omega
      have hx1 : x' / region_size = x / region_size := by
        apply block_unique x (x' / region_size) region_size hrs
        · rw [← hb1]; exact hxin.1
        · rw [← hb1]; exact hxin.2
      have hy1 : y' / region_size = y / region_size := by
        apply block_unique y (y' / region_size) region_size hrs
        · rw [← hb2]; exact hyin.1
        · rw [← hb2]; exact hyin.2
      rw [hbv, hx1, hy1]
    · rintro rfl
      have hxb := block_of_div x region_size hrs
      have hyb := block_of_div y region_size hrs
      have hxw : (x / region_size) * region_size ≤ width := le_trans hxb.1 (Nat.le_of_lt hx)
      have hyh : (y / region_size) * region_size ≤ height := le_trans hyb.1 (Nat.le_of_lt hy)
      refine ⟨hxb.1, ?_, hyb.1, ?_⟩
      · show x < (x / region_size) * region_size +
          min region_size (width - (x / region_size) * region_size)
        rcases hxb with ⟨h1, h2⟩
        omega
      · show y < (y / region_size) * region_size +
          min region_size (height - (y / region_size) * region_size)
        rcases hyb with ⟨h1, h2⟩
        omega

/-- C4: region clusterer coverage.  For every diff buffer and every pixel
inside the canvas satisfying the mismatch highlight convention (red
channel above 200, green and blue below 50, non-zero alpha), exactly one
emitted region's bounds contains that pixel. -/
theorem c4_coverage (diff_data : ℕ → Pixel) (width height region_size x y : ℕ)
    (hrs : 0 < region_size) (hx : x < width) (hy : y < height)
    (hm : is_diff_highlight (diff_data (y * width + x))) :
    (find_mismatch_regions diff_data width height region_size).countP
      (fun r => decide (region_contains r x y)) = 1 := by
  unfold find_mismatch_regions
  rw [List.countP_map, List.countP_eq_length_filter]
  have hcomp : ((fun r => decide (region_contains r x y)) ∘ mk_region width height region_size) =
      (fun b => decide (region_contains (mk_region width height region_size b) x y)) := rfl
  rw [hcomp, sorted_blocks_filter diff_data width height region_size x y hrs hx hy hm]
  rfl

def red_pixel : Pixel := ⟨255, 0, 0, 255⟩

def clear_pixel : Pixel := ⟨0, 0, 0, 0⟩

/-- A diff buffer for a 100 × 100 canvas whose sole highlighted pixel sits
at `(95, 95)` (flat index `95 * 100 + 95`). -/
def diff_data_9595 : ℕ → Pixel := fun i => if i = 9595 then red_pixel else clear_pixel

/-- C4 witness: on a 1 × 1 canvas whose pixel is highlighted, exactly one
region contains the pixel `(0, 0)`. -/
theorem c4_coverage_witness :
    (find_mismatch_regions (fun _ => red_pixel) 1 1 50).countP
      (fun r => decide (region_contains r 0 0)) = 1 :=
  c4_coverage (fun _ => red_pixel) 1 1 50 0 0 (by decide) (by decide) (by decide) (by decide)

/-- C5: every bounding box emitted by the region clusterer is clipped to
the canvas — its width is `min region_size (width - x)` and its height is
`min region_size (height - y)`, so `x + width ≤ canvasWidth` and
`y + height ≤ canvasHeight`; in particular, on a 100 × 100 canvas with
region size 50, a mismatch at pixel `(95, 95)` yields the single region
`{x := 50, y := 50, width := 50, height := 50}`. -/
theorem c5_clipping :
    (∀ (diff_data : ℕ → Pixel) (width height region_size : ℕ), 0 < region_size →
      ∀ r ∈ find_mismatch_regions diff_data width height region_size,
        r.width = min region_size (width - r.x) ∧
        r.height = min region_size (height - r.y) ∧
        r.x + r.width ≤ width ∧ r.y + r.height ≤ height) ∧
    find_mismatch_regions diff_data_9595 100 100 50 =
      [{ x := 50, y := 50, width := 50, height := 50 }] := by
  constructor
  · intro diff_data width height region_size hrs r hr
    unfold find_mismatch_regions at hr
    rcases List.mem_map.mp hr with ⟨b, hbmem, hbr⟩
    rw [Finset.mem_sort, List.mem_toFinset, mem_mismatch_blocks_list] at hbmem
    rcases hbmem with ⟨x', y', hx', hy', _, hbv⟩
    have hb1 : b.1 = (x' / region_size) * region_size := by rw [hbv]
    have hb2 : b.2 = (y' / region_size) * region_size := by rw [hbv]
    have hbw : b.1 ≤ width := by
      rw [hb1]
      exact le_trans (block_of_div x' region_size hrs).1 (Nat.le_of_lt hx')
    have hbh : b.2 ≤ height := by
      rw [hb2]
      exact le_trans (block_of_div y' region_size hrs).1 (Nat.le_of_lt hy')
    rw [← hbr]
    refine ⟨rfl, rfl, ?_, ?_⟩
    · show b.1 + min region_size (width - b.1) ≤ width
      omega
    · show b.2 + min region_size (height - b.2) ≤ height
      omega
  · have hlist : mismatch_blocks_list diff_data_9595 100 100 50 = [(50, 50)] := by decide
    unfold find_mismatch_regions
    rw [hlist]
    have htf : ([((50 : ℕ), (50 : ℕ))] : List (ℕ × ℕ)).toFinset = {(50, 50)} := rfl
    rw [htf, Finset.sort_singleton]
    rfl

/-- C5 witness: the clipping invariant instantiated on the concrete
100 × 100 canvas with the mismatch at `(95, 95)`. -/
theorem c5_clipping_witness :
    ({ x := 50, y := 50, width := 50, height := 50 } : Region).width = min 50 (100 - 50) ∧
    ({ x := 50, y := 50, width := 50, height := 50 } : Region).height = min 50 (100 - 50) ∧
    ({ x := 50, y := 50, width := 50, height := 50 } : Region).x +
      ({ x := 50, y := 50, width := 50, height := 50 } : Region).width ≤ 100 ∧
    ({ x := 50, y := 50, width := 50, height := 50 } : Region).y +
      ({ x := 50, y := 50, width := 50, height := 50 } : Region).height ≤ 100 :=
  c5_clipping.1 diff_data_9595 100 100 50 (by decide)
    { x := 50, y := 50, width := 50, height := 50 } (by rw [c5_clipping.2]; decide)

/-! ## Live style records (validator/services/css_validation_service.py)

One observation of a live element, as produced by
`_extract_live_element_styles`: selector, category name, truncated text,
lowercased tag, computed styles (property name to string value) and the
rounded bounding rect. -/

structure Pos where
  x : ℤ
  y : ℤ
  width : ℤ
  height : ℤ
deriving DecidableEq

structure StyleRecord where
  selector : String
  name : String
  text : String
  tag : String
  styles : List (String × String)
  position : Pos
deriving DecidableEq

instance : Inhabited StyleRecord :=
  ⟨{ selector := "", name := "", text := "", tag := "", styles := [],
     position := ⟨0, 0, 0, 0⟩ }⟩

/-- `el['styles'].get(prop, dflt)`. -/
def style_getD (el : StyleRecord) (prop dflt : String) : String :=
  (el.styles.lookup prop).getD dflt

/-- `el['styles'].get(prop, '')`. -/
def style_get (el : StyleRecord) (prop : String) : String :=
  style_getD el prop ""

/-- `f"({x}, {y}) — {w}x{h}px"`. -/
def location_with_size (el : StyleRecord) : String :=
  let x := el.position.x
  let y := el.position.y
  let w := el.position.width
  let h := el.position.height
  s!"({x}, {y}) — {w}x{h}px"

/-- `f"({x}, {y})"`. -/
def location_no_size (el : StyleRecord) : String :=
  let x := el.position.x
  let y := el.position.y
  s!"({x}, {y})"

/-! ### Audit check 1: font consistency across same element types -/

def consistency_tags : List String :=
  ["h1", "h2", "h3", "h4", "p", "a", "button", "li", "span"]

/-- One `font_map` entry: the reference styles recorded from the first
element of a tag. -/
structure ConsRef where
  font : String
  size : String
  weight : String
  color : String
  line_height : String
  name : String
  selector : String
deriving DecidableEq

def ref_of (el : StyleRecord) : ConsRef :=
  { font := style_get el "font-family"
    size := style_get el "font-size"
    weight := style_get el "font-weight"
    color := style_get el "color"
    line_height := style_get el "line-height"
    name := el.name
    selector := el.selector }

def mk_family_defect (el : StyleRecord) (ref : ConsRef) : Defect :=
  let tu := str_to_upper el.tag
  { element := el.name ++ " — \"" ++ el.text.take 25 ++ "\""
    property := "font-family"
    expected := ref.font
    actual := style_get el "font-family"
    source := "audit"
    status := "WARN"
    selector := some el.selector
    location := some (location_with_size el)
    severity := some "medium"
    description := some ("This " ++ tu ++ " uses a different font-family than the first " ++
      tu ++ " on the page. All " ++ tu ++
      " elements should use the same font for visual consistency.")
    css_fix := some (el.selector ++ " \x7b\n  font-family: " ++ ref.font ++ ";\n\x7d") }

def mk_size_defect (el : StyleRecord) (ref : ConsRef) : Defect :=
  let tu := str_to_upper el.tag
  let size := style_get el "font-size"
  { element := el.name ++ " — \"" ++ el.text.take 25 ++ "\""
    property := "font-size"
    expected := ref.size
    actual := size
    source := "audit"
    status := "FAIL"
    selector := some el.selector
    location := some (location_with_size el)
    severity := some "high"
    description := some ("Font size mismatch: This " ++ tu ++ " is " ++ size ++
      " but the primary " ++ tu ++ " is " ++ ref.size ++
      ". This breaks the visual hierarchy and likely does not match the Zeplin design.")
    css_fix := some (el.selector ++ " \x7b\n  font-size: " ++ ref.size ++ ";\n\x7d") }

def mk_color_defect (el : StyleRecord) (ref : ConsRef) : Defect :=
  let tu := str_to_upper el.tag
  let color := style_get el "color"
  { element := el.name ++ " — \"" ++ el.text.take 25 ++ "\""
    property := "color"
    expected := ref.color
    actual := color
    source := "audit"
    status := "WARN"
    selector := some el.selector
    location := some (location_with_size el)
    severity := some "medium"
    description := some ("Text color inconsistency: This " ++ tu ++ " has color " ++ color ++
      " but the primary " ++ tu ++ " uses " ++ ref.color ++ ".")
    css_fix := some (el.selector ++ " \x7b\n  color: " ++ ref.color ++ ";\n\x7d") }

/-- The three comparisons performed against the reference, in source
order: font-family, font-size, color (weight and line-height are recorded
in the reference but never compared). -/
def consistency_defects (el : StyleRecord) (ref : ConsRef) : List Defect :=
  (if style_get el "font-family" ≠ ref.font then [mk_family_defect el ref] else []) ++
  (if style_get el "font-size" ≠ ref.size then [mk_size_defect el ref] else []) ++
  (if style_get el "color" ≠ ref.color then [mk_color_defect el ref] else [])

/-- Check 1 of `_audit_live_page`: walk the live elements threading the
mutable `font_map`; the first element of each consistency tag is recorded
as the reference, every later element of that tag is compared against the
recorded reference. -/
def font_consistency : List StyleRecord → List (String × ConsRef) → List Defect
  | [], _ => []
  | el :: rest, fmap =>
    if el.tag ∈ consistency_tags then
      match fmap.lookup el.tag with
      | none => font_consistency rest ((el.tag, ref_of el) :: fmap)
      | some ref => consistency_defects el ref ++ font_consistency rest fmap
    else font_consistency rest fmap

/-- C2, claim side: for every element whose tag is a consistency tag, the
first element with that tag among the earlier elements establishes the
reference, and the element is compared field-by-field against that
reference (one defect per divergent compared property). -/
def font_consistency_by_first : List StyleRecord → List StyleRecord → List Defect
  | _, [] => []
  | prev, el :: rest =>
    (if el.tag ∈ consistency_tags then
      match prev.find? (fun f => f.tag == el.tag) with
      | some f => consistency_defects el (ref_of f)
      | none => []
    else []) ++ font_consistency_by_first (prev ++ [el]) rest

/-! ### Audit checks 2-4 and the inventory -/

def overflow_tags : List String := ["div", "nav", "header", "footer", "section", "main"]

def mk_overflow_defect (el : StyleRecord) (sw : ℤ) : Defect :=
  let w := el.position.width
  let over := w - sw
  { element := el.name ++ " (" ++ el.selector ++ ")"
    property := "width (overflow)"
    expected := s!"<= {sw}px"
    actual := s!"{w}px"
    source := "audit"
    status := "FAIL"
    selector := some el.selector
    location := some (location_no_size el)
    severity := some "critical"
    description := some (s!"This element is {over}px wider than the Zeplin design width " ++
      s!"({sw}px). This causes horizontal scrollbar and layout overflow.")
    css_fix := some (el.selector ++ " \x7b\n  max-width: " ++ toString sw ++
      "px;\n  overflow-x: hidden;\n\x7d") }

/-- Check 2: viewport width compliance, run only when the Zeplin screen
width is present and truthy (a screen width of 0 is falsy in Python and
skips the check). -/
def width_check (les : List StyleRecord) (screen_width : Option ℤ) : List Defect :=
  match screen_width with
  | none => []
  | some sw =>
    if sw = 0 then []
    else les.flatMap (fun el =>
      if el.tag ∈ overflow_tags ∧ el.position.width > sw + 20 then
        [mk_overflow_defect el sw]
      else [])

def mk_img_defect (el : StyleRecord) : Defect :=
  let w := el.position.width
  let h := el.position.height
  { element := el.name ++ " (" ++ el.selector ++ ")"
    property := "dimensions"
    expected := "visible width & height > 0"
    actual := s!"{w}x{h}px (broken/hidden)"
    source := "audit"
    status := "FAIL"
    selector := some el.selector
    location := some (location_no_size el)
    severity := some "high"
    description := some ("This image has zero width or height — it is either broken " ++
      "(missing src), hidden by CSS, or has not loaded. Check the image src attribute " ++
      "and any CSS rules hiding it.")
    css_fix := some ("/* Check the img src attribute in HTML */\n" ++ el.selector ++
      " \x7b\n  display: block;\n  min-width: 100px;\n  min-height: 100px;\n\x7d") }

/-- Check 3: images without proper dimensions. -/
def image_check (les : List StyleRecord) : List Defect :=
  les.flatMap (fun el =>
    if el.tag = "img" ∧ (el.position.width = 0 ∨ el.position.height = 0) then
      [mk_img_defect el]
    else [])

def contrast_tags : List String :=
  ["p", "span", "a", "li", "h1", "h2", "h3", "h4", "button"]

def mk_contrast_defect (el : StyleRecord) : Defect :=
  let color := style_get el "color"
  { element := el.name ++ " — \"" ++ el.text.take 25 ++ "\""
    property := "color vs background-color"
    expected := "text and background must differ"
    actual := "both are " ++ color
    source := "audit"
    status := "FAIL"
    selector := some el.selector
    location := some (location_with_size el)
    severity := some "critical"
    description := some ("INVISIBLE TEXT: The text color and background color are both " ++
      color ++ ". Users cannot read this element. This is an accessibility violation " ++
      "(WCAG 2.1).")
    css_fix := some (el.selector ++ " \x7b\n  color: #333333; /* or appropriate " ++
      "contrasting color */\n  /* OR */\n  background-color: transparent;\n\x7d") }

/-- `if color and bg and color == bg` for a readable-text tag. -/
def contrast_cond (el : StyleRecord) : Prop :=
  el.tag ∈ contrast_tags ∧ style_get el "color" ≠ "" ∧
    style_get el "background-color" ≠ "" ∧
    style_get el "color" = style_get el "background-color"

instance (el : StyleRecord) : Decidable (contrast_cond el) := by
  unfold contrast_cond; infer_instance

/-- Check 4: text readability (zero-contrast check). -/
def contrast_check (les : List StyleRecord) : List Defect :=
  les.flatMap (fun el => if contrast_cond el then [mk_contrast_defect el] else [])

structure InventoryEntry where
  element : String
  selector : String
  text : String
  position : String
  size : String
  font : String
  font_size : String
  font_weight : String
  color : String
  bg_color : String
  line_height : String
  padding : String
  margin : String
deriving DecidableEq

def inventory_entry (el : StyleRecord) : InventoryEntry :=
  { element := el.name
    selector := el.selector
    text := el.text.take 40
    position := location_no_size el
    size :=
      (let w := el.position.width
       let h := el.position.height
       s!"{w}x{h}px")
    font := (style_getD el "font-family" "N/A").take 40
    font_size := style_getD el "font-size" "N/A"
    font_weight := style_getD el "font-weight" "N/A"
    color := style_getD el "color" "N/A"
    bg_color := style_getD el "background-color" "N/A"
    line_height := style_getD el "line-height" "N/A"
    padding := style_getD el "padding" "N/A"
    margin := style_getD el "margin" "N/A" }

/-- Check 5: the element inventory, one row per observed live element. -/
def element_inventory (les : List StyleRecord) : List InventoryEntry :=
  les.map inventory_entry

/-- The defect list of `_audit_live_page`: the four checks append their
defects to `mismatches` in source order. -/
def audit_defects (les : List StyleRecord) (screen_width : Option ℤ) : List Defect :=
  font_consistency les [] ++ width_check les screen_width ++
    image_check les ++ contrast_check les

/-! ### C2: intra-page consistency -/

theorem font_consistency_eq (les : List StyleRecord) :
    ∀ (prev : List StyleRecord) (fmap : List (String × ConsRef)),
      (∀ t, t ∈ consistency_tags →
        fmap.lookup t = (prev.find? (fun f => f.tag == t)).map ref_of) →
      font_consistency les fmap = font_consistency_by_first prev les := by
  induction les with
  | nil => intro prev fmap _; rfl
  | cons el rest ih =>
    intro prev fmap hinv
    by_cases ht : el.tag ∈ consistency_tags
    · have hl := hinv el.tag ht
      cases hf : prev.find? (fun f => f.tag == el.tag) with
      | some f =>
        rw [hf] at hl
        have hl2 : fmap.lookup el.tag = some (ref_of f) := hl.trans rfl
        simp only [font_consistency, font_consistency_by_first, if_pos ht, hl2, hf]
        congr 1
        apply ih
        intro t htt
        rw [List.find?_append]
        cases hft : prev.find? (fun f2 => f2.tag == t) with
        | some g =>
          have := hinv t htt
          rw [hft] at this
          simp [this]
        | none =>
          by_cases hte : t = el.tag
          · subst hte
            rw [hft] at hf
            exact absurd hf (by simp)
          · have hbe : (el.tag == t) = false := beq_eq_false_iff_ne.mpr (Ne.symm hte)
            have := hinv t htt
            rw [hft] at this
            simp [this, List.find?, hbe]
      | none =>
        rw [hf] at hl
        simp only [font_consistency, font_consistency_by_first, if_pos ht, hl, hf,
          List.nil_append]
        apply ih
        intro t htt
        rw [List.find?_append]
        by_cases hte : t = el.tag
        · subst hte
          rw [hf]
          simp [List.lookup, List.find?]
        · have hbe1 : (t == el.tag) = false := beq_eq_false_iff_ne.mpr hte
          have hbe2 : (el.tag == t) = false := beq_eq_false_iff_ne.mpr (Ne.symm hte)
          have := hinv t htt
          cases hft : prev.find? (fun f2 => f2.tag == t) with
          | some g =>
            rw [hft] at this
            simp [List.lookup, hbe1, this, List.find?, hbe2]
          | none =>
            rw [hft] at this
            simp [List.lookup, hbe1, this, List.find?, hbe2]
    · simp only [font_consistency, font_consistency_by_first, if_neg ht, List.nil_append]
      apply ih
      intro t htt
      have hte : el.tag ≠ t := fun h => ht (h ▸ htt)
      have hbe : (el.tag == t) = false := beq_eq_false_iff_ne.mpr hte
      rw [List.find?_append]
      cases hft : prev.find? (fun f2 => f2.tag == t) with
      | some g =>
        have := hinv t htt
        rw [hft] at this
        simp [this, List.find?, hbe]
      | none =>
        have := hinv t htt
        rw [hft] at this
        simp [this, List.find?, hbe]

/-- The styles used by the C2 concrete scenario: two paragraphs equal in
every compared field except `color`. -/
def p_styles (c : String) : List (String × String) :=
  [("font-family", "Arial"), ("font-size", "16px"), ("font-weight", "400"),
   ("color", c), ("line-height", "24px"), ("background-color", "rgb(255,255,255)"),
   ("padding", "0px"), ("margin", "0px")]

def p_black : StyleRecord :=
  { selector := "p", name := "Paragraph", text := "first paragraph", tag := "p",
    styles := p_styles "rgb(0,0,0)", position := ⟨0, 10, 600, 20⟩ }

def p_red : StyleRecord :=
  { selector := "p", name := "Paragraph #2", text := "second paragraph", tag := "p",
    styles := p_styles "rgb(255,0,0)", position := ⟨0, 40, 600, 20⟩ }

/-- C2: in the intra-page consistency check the first element of each
consistency tag establishes the reference and every later element of that
tag is compared against it, one defect per divergent compared property
(`font_consistency_by_first` states exactly this discipline); font-size
divergence is severity high / FAIL and font-family and color divergences
are severity medium / WARN; and the concrete scenario of two `p` elements
differing only in color yields exactly one defect, a color defect with
severity medium, status WARN, expected `rgb(0,0,0)`, actual
`rgb(255,0,0)`. -/
theorem c2_consistency :
    (∀ les : List StyleRecord, font_consistency les [] = font_consistency_by_first [] les) ∧
    (∀ (el : StyleRecord) (ref : ConsRef),
      (mk_size_defect el ref).severity = some "high" ∧
      (mk_size_defect el ref).status = "FAIL" ∧
      (mk_family_defect el ref).severity = some "medium" ∧
      (mk_family_defect el ref).status = "WARN" ∧
      (mk_color_defect el ref).severity = some "medium" ∧
      (mk_color_defect el ref).status = "WARN") ∧
    (audit_defects [p_black, p_red] none).length = 1 ∧
    ((audit_defects [p_black, p_red] none).getD 0 default).property = "color" ∧
    ((audit_defects [p_black, p_red] none).getD 0 default).severity = some "medium" ∧
    ((audit_defects [p_black, p_red] none).getD 0 default).status = "WARN" ∧
    ((audit_defects [p_black, p_red] none).getD 0 default).expected = "rgb(0,0,0)" ∧
    ((audit_defects [p_black, p_red] none).getD 0 default).actual = "rgb(255,0,0)" := by
  refine ⟨?_, ?_, by decide, by decide, by decide, by decide, by decide, by decide⟩
  · intro les
    apply font_consistency_eq
    intro t _
    simp [List.lookup, List.find?]
  · intro el ref
    exact ⟨rfl, rfl, rfl, rfl, rfl, rfl⟩

/-! ### C8: zero-contrast text -/

theorem mem_if_singleton {α : Type} {c : Prop} [Decidable c] {x d : α}
    (h : d ∈ (if c then [x] else [])) : d = x := by
  split at h
  · simpa using h
  · simp at h

theorem flatMap_if_singleton {α β : Type} (l : List α) (p : α → Prop) [DecidablePred p]
    (f : α → β) :
    (l.flatMap fun a => if p a then [f a] else []) =
      (l.filter (fun a => decide (p a))).map f := by
  induction l with
  | nil => rfl
  | cons a t ih => by_cases h : p a <;> simp [h, ih, List.filter_cons]

theorem consistency_defects_props (el : StyleRecord) (ref : ConsRef) (d : Defect)
    (hd : d ∈ consistency_defects el ref) :
    d.property = "font-family" ∨ d.property = "font-size" ∨ d.property = "color" := by
  unfold consistency_defects at hd
  rcases List.mem_append.mp hd with h | h
  · rcases List.mem_append.mp h with h2 | h2
    · left; rw [mem_if_singleton h2]; rfl
    · right; left; rw [mem_if_singleton h2]; rfl
  · right; right; rw [mem_if_singleton h]; rfl

theorem font_consistency_props (les : List StyleRecord) :
    ∀ (fmap : List (String × ConsRef)) (d : Defect), d ∈ font_consistency les fmap →
      d.property = "font-family" ∨ d.property = "font-size" ∨ d.property = "color" := by
  induction les with
  | nil => intro fmap d h; simp [font_consistency] at h
  | cons el rest ih =>
    intro fmap d h
    unfold font_consistency at h
    by_cases ht : el.tag ∈ consistency_tags
    · rw [if_pos ht] at h
      cases hf : fmap.lookup el.tag with
      | none => rw [hf] at h; exact ih _ d h
      | some ref =>
        rw [hf] at h
        rcases List.mem_append.mp h with h2 | h2
        · exact consistency_defects_props el ref d h2
        · exact ih _ d h2
    · rw [if_neg ht] at h; exact ih _ d h

theorem width_check_props (les : List StyleRecord) (sw : Option ℤ) (d : Defect)
    (hd : d ∈ width_check les sw) : d.property = "width (overflow)" := by
  cases sw with
  | none => simp [width_check] at hd
  | some w =>
    simp only [width_check] at hd
    by_cases hw : w = 0
    · rw [if_pos hw] at hd; simp at hd
    · rw [if_neg hw] at hd
      rcases List.mem_flatMap.mp hd with ⟨el, _, hmem⟩
      rw [mem_if_singleton hmem]; rfl

theorem image_check_props (les : List StyleRecord) (d : Defect)
    (hd : d ∈ image_check les) : d.property = "dimensions" := by
  unfold image_check at hd
  rcases List.mem_flatMap.mp hd with ⟨el, _, hmem⟩
  rw [mem_if_singleton hmem]; rfl

/-- The readable-text element of the C8 concrete scenario: a span whose
text colour and background colour are the same string. -/
def span_gray : StyleRecord :=
  { selector := "span.note", name := "Span", text := "fine print", tag := "span",
    styles := [("font-family", "Arial"), ("font-size", "12px"), ("font-weight", "400"),
      ("color", "rgb(10,10,10)"), ("line-height", "18px"),
      ("background-color", "rgb(10,10,10)")],
    position := ⟨5, 700, 300, 18⟩ }

/-- C8: the audit emits one `color vs background-color` critical/FAIL
defect for exactly the live elements with a readable-text tag whose
non-empty resolved color string equals their resolved background-color
string; in particular a span with color `rgb(10,10,10)` and
background-color `rgb(10,10,10)` yields exactly one such defect. -/
theorem c8_contrast :
    (∀ (les : List StyleRecord) (sw : Option ℤ),
      (audit_defects les sw).filter (fun d => d.property == "color vs background-color") =
        (les.filter (fun el => decide (contrast_cond el))).map mk_contrast_defect) ∧
    (∀ el : StyleRecord,
      (mk_contrast_defect el).severity = some "critical" ∧
      (mk_contrast_defect el).status = "FAIL" ∧
      (mk_contrast_defect el).property = "color vs background-color") ∧
    (audit_defects [span_gray] none).length = 1 ∧
    ((audit_defects [span_gray] none).getD 0 default).property = "color vs background-color" ∧
    ((audit_defects [span_gray] none).getD 0 default).severity = some "critical" ∧
    ((audit_defects [span_gray] none).getD 0 default).status = "FAIL" := by
  refine ⟨?_, fun el => ⟨rfl, rfl, rfl⟩, by decide, by decide, by decide, by decide⟩
  intro les sw
  unfold audit_defects
  rw [List.filter_append, List.filter_append, List.filter_append]
  have h1 : (font_consistency les []).filter
      (fun d => d.property == "color vs background-color") = [] := by
    apply List.filter_eq_nil_iff.mpr
    intro d hd
    rcases font_consistency_props les [] d hd with h | h | h <;> simp [h]
  have h2 : (width_check les sw).filter
      (fun d => d.property == "color vs background-color") = [] := by
    apply List.filter_eq_nil_iff.mpr
    intro d hd
    simp [width_check_props les sw d hd]
  have h3 : (image_check les).filter
      (fun d => d.property == "color vs background-color") = [] := by
    apply List.filter_eq_nil_iff.mpr
    intro d hd
    simp [image_check_props les d hd]
  have h4 : contrast_check les =
      (les.filter (fun el => decide (contrast_cond el))).map mk_contrast_defect :=
    flatMap_if_singleton les contrast_cond mk_contrast_defect
  have h5 : ((les.filter (fun el => decide (contrast_cond el))).map mk_contrast_defect).filter
      (fun d => d.property == "color vs background-color") =
        (les.filter (fun el => decide (contrast_cond el))).map mk_contrast_defect := by
    apply List.filter_eq_self.mpr
    intro d hd
    rcases List.mem_map.mp hd with ⟨el, _, hel⟩
    rw [← hel]
    rfl
  rw [h1, h2, h3, h4, h5]
  simp

/-! ## Design spec extractor (`CSSValidationService.extract_specs_from_zeplin`)

Zeplin layer records.  Every key the source reads with `in` / `.get` may
be absent, so those are `Option` fields; numeric style values are
embedded as integers. -/

structure ZColor where
  r : Option ℤ
  g : Option ℤ
  b : Option ℤ
deriving DecidableEq

structure ZFont where
  size : Option ℤ
  family : Option String
  line_height : Option ℤ
deriving DecidableEq

structure ZRect where
  width : Option ℤ
  height : Option ℤ
deriving DecidableEq

structure ZStyle where
  font : ZFont
  color : ZColor
deriving DecidableEq

/-- One Zeplin layer; `ltype` models the `type` key. -/
structure ZLayer where
  ltype : String
  content : Option String
  style : ZStyle
  rect : ZRect
deriving DecidableEq

/-- The opportunistic `expected_css` assembly, in source order: font-size,
font-family, line-height, color (emitted when the `r` channel key exists,
with `g` and `b` read via `.get(..., 0)`), width, height. -/
def expected_css (layer : ZLayer) : List (String × String) :=
  (match layer.style.font.size with
   | some s => [("font-size", s!"{s}px")]
   | none => []) ++
  (match layer.style.font.family with
   | some fam => [("font-family", fam)]
   | none => []) ++
  (match layer.style.font.line_height with
   | some lh => [("line-height", s!"{lh}px")]
   | none => []) ++
  (match layer.style.color.r with
   | some r =>
     let g := layer.style.color.g.getD 0
     let b := layer.style.color.b.getD 0
     [("color", s!"rgb({r}, {g}, {b})")]
   | none => []) ++
  (match layer.rect.width with
   | some w => [("width", s!"{w}px")]
   | none => []) ++
  (match layer.rect.height with
   | some h => [("height", s!"{h}px")]
   | none => [])

structure ZeplinSpec where
  selector : String
  name : String
  expected : List (String × String)
  source : String
deriving DecidableEq

/-- The per-layer body of `extract_specs_from_zeplin`: only a `text` layer
with a `content` key and non-empty trimmed content is considered; the
spec is emitted only when at least one expected property was derived. -/
def layer_spec (layer : ZLayer) : Option ZeplinSpec :=
  if layer.ltype = "text" then
    match layer.content with
    | some content =>
      let text := py_strip content
      if text = "" then none
      else
        let e := expected_css layer
        if e = [] then none
        else
          let safe := py_replace_quote (text.take 30)
          some { selector := "text=\"" ++ safe ++ "\""
                 name := "Zeplin Layer: " ++ text.take 40
                 expected := e
                 source := "zeplin" }
    | none => none
  else none

/-- `extract_specs_from_zeplin`, over the `layers` list of the Zeplin
payload. -/
def extract_specs_from_zeplin (layers : List ZLayer) : List ZeplinSpec :=
  layers.flatMap (fun l => (layer_spec l).toList)

/-- A text layer whose style colour has an `r` channel but no `g` or `b`
key. -/
def red_only_layer : ZLayer :=
  { ltype := "text", content := some "hi",
    style := { font := ⟨none, none, none⟩, color := ⟨some 5, none, none⟩ },
    rect := ⟨none, none⟩ }

/-- C6 counterexample: a layer whose style colour holds only the `r`
channel key still gets a `color` entry (`rgb(5, 0, 0)`, with `g` and `b`
defaulted to 0), refuting that a `color` entry is emitted exactly when all
channel keys `r`, `g` and `b` exist. -/
theorem c6_counterexample :
    red_only_layer.style.color.g = none ∧ red_only_layer.style.color.b = none ∧
    ((extract_specs_from_zeplin [red_only_layer]).flatMap
        (fun sp => sp.expected)).lookup "color" = some "rgb(5, 0, 0)" :=
  ⟨rfl, rfl, by decide⟩

/-- The guard of `layer_spec`: a `text` layer with non-empty trimmed
content. -/
def layer_text_ok (layer : ZLayer) : Prop :=
  layer.ltype = "text" ∧ ∃ c, layer.content = some c ∧ py_strip c ≠ ""

/-- C6 amended: the emitted expected map contains a `color` entry exactly
when the channel key `r` exists in the layer's style colour (`g` and `b`
default to 0); and a layer emits no ExpectedSpec at all exactly when it is
not a text layer with non-empty trimmed content or no expected property
could be derived. -/
theorem c6_amended :
    (∀ layer : ZLayer,
      ((expected_css layer).lookup "color").isSome ↔ layer.style.color.r.isSome) ∧
    (∀ layer : ZLayer,
      layer_spec layer = none ↔ (¬ layer_text_ok layer ∨ expected_css layer = [])) := by
  constructor
  · intro layer
    rcases layer with ⟨lt, cont, ⟨⟨fs, fam, lh⟩, ⟨r, g, b⟩⟩, ⟨rcw, rch⟩⟩
    rcases fs with _ | s <;> rcases fam with _ | f <;> rcases lh with _ | l <;>
      rcases r with _ | rv <;> rcases rcw with _ | w <;> rcases rch with _ | h <;>
      simp [expected_css, List.lookup]
  · intro layer
    unfold layer_spec layer_text_ok
    by_cases h1 : layer.ltype = "text"
    · rw [if_pos h1]
      cases hc : layer.content with
      | none => simp [h1, hc]
      | some c =>
        by_cases h2 : py_strip c = ""
        · simp [h1, hc, h2]
        · by_cases h3 : expected_css layer = []
          · simp [h1, hc, h2, h3]
          · simp [h1, hc, h2, h3]
    · rw [if_neg h1]
      simp [h1]

/-! ## Design cross-check (`CSSValidationService._check_zeplin_specs`)

The bounded-wait element lookup
(`page.locator(selector).first.wait_for(state="attached", timeout=2000)`)
is embedded as a function returning `Option`: `none` models the lookup
miss or timeout, whose raised exception the `except` branch of the source
converts into a single element-not-found defect.  The embedded check is a
total function into a plain defect list, so no failure escapes it. -/

def element_not_found_defect (name : String) : Defect :=
  { element := name, property := "element_found", expected := "visible",
    actual := "not_found", source := "zeplin", status := "FAIL",
    selector := none, location := none, severity := none, description := none,
    css_fix := none }

def prop_mismatch_defect (name prop exp act : String) : Defect :=
  { element := name, property := prop, expected := exp, actual := act,
    source := "zeplin", status := "FAIL", selector := none, location := none,
    severity := none, description := none, css_fix := none }

/-- The per-spec body of `_check_zeplin_specs`: locate the element; when
found, compare each expected property (both sides stripped) against the
live computed value; when not found, emit the single not-found defect. -/
def spec_defects (lookup_el : String → Option (String → String))
    (spec : ZeplinSpec) : List Defect :=
  match lookup_el spec.selector with
  | none => [element_not_found_defect spec.name]
  | some styles =>
    spec.expected.flatMap (fun pe =>
      if py_strip (styles pe.1) ≠ py_strip pe.2 then
        [prop_mismatch_defect spec.name pe.1 pe.2 (styles pe.1)]
      else [])

def check_zeplin_specs (lookup_el : String → Option (String → String))
    (specs : List ZeplinSpec) : List Defect :=
  specs.flatMap (spec_defects lookup_el)

/-- C7: the design cross-check processes each spec independently, and a
spec whose live element cannot be located within the bounded wait budget
(lookup returns `none`) contributes exactly one defect signalling
"element not found" — not one defect per expected property — and the
check is a total function (the lookup failure is absorbed, never
re-raised). -/
theorem c7_not_found :
    (∀ (lookup_el : String → Option (String → String)) (specs : List ZeplinSpec),
      check_zeplin_specs lookup_el specs = specs.flatMap (spec_defects lookup_el)) ∧
    (∀ (lookup_el : String → Option (String → String)) (spec : ZeplinSpec),
      lookup_el spec.selector = none →
      spec_defects lookup_el spec = [element_not_found_defect spec.name]) := by
  refine ⟨fun _ _ => rfl, ?_⟩
  intro lk spec h
  unfold spec_defects
  rw [h]

/-- A spec carrying three expected properties, for the C7 witness. -/
def missing_spec : ZeplinSpec :=
  { selector := "text=\"Welcome\"", name := "Zeplin Layer: Welcome",
    expected := [("font-size", "16px"), ("color", "rgb(0, 0, 0)"), ("width", "300px")],
    source := "zeplin" }

/-- C7 witness: under a lookup that finds nothing, the spec with three
expected properties contributes exactly the one not-found defect. -/
theorem c7_not_found_witness :
    spec_defects (fun _ => none) missing_spec =
      [element_not_found_defect missing_spec.name] :=
  c7_not_found.2 (fun _ => none) missing_spec rfl

/-! ## Live style extractor (`CSSValidationService._extract_live_element_styles`)

The in-page JavaScript walks a fixed selector catalog, takes at most the
first 5 elements each selector matched, skips elements whose bounding
rect has both width and height exactly 0 or whose top exceeds 5000, and
records computed styles and the rounded rect.  `getBoundingClientRect`
values may be fractional, so rect fields are rationals; `Math.round` is
floor of `q + 1/2`. -/

structure RectQ where
  x : ℚ
  y : ℚ
  width : ℚ
  height : ℚ
  top : ℚ
deriving DecidableEq

structure DomElement where
  tag : String
  text : String
  className : String
  computed : String → String
  rect : RectQ

instance : Inhabited DomElement :=
  ⟨{ tag := "", text := "", className := "", computed := fun _ => "",
     rect := ⟨0, 0, 0, 0, 0⟩ }⟩

/-- JS `Math.round`: nearest integer, half rounded toward positive
infinity. -/
def js_round (q : ℚ) : ℤ := ⌊q + 1 / 2⌋

def sel_catalog : List (String × String) :=
  [("h1", "H1 Heading"), ("h2", "H2 Heading"), ("h3", "H3 Heading"),
   ("h4", "H4 Heading"), ("p", "Paragraph"), ("a", "Anchor Link"),
   ("button, .btn, [type=\"submit\"]", "Button"), ("img", "Image"),
   ("nav, header, [role=\"navigation\"]", "Navigation"), ("footer", "Footer"),
   ("input, textarea, select", "Form Input"), ("li", "List Item"),
   ("span", "Span"), ("div", "Div Container")]

def prop_catalog : List String :=
  ["font-size", "font-family", "font-weight", "color",
   "background-color", "line-height", "padding", "margin",
   "border", "border-radius", "text-decoration", "text-align",
   "width", "height", "display", "position"]

/-- `${tag}${classes ? '.' + classes : ''}` with
`classes = className.split(' ').slice(0, 3).join('.')`. -/
def mk_selector (el : DomElement) : String :=
  let tag := str_to_lower el.tag
  let classes :=
    if el.className = "" then ""
    else String.intercalate "." ((split_on_space el.className).take 3)
  tag ++ (if classes = "" then "" else "." ++ classes)

/-- `${name}${i > 0 ? ' #' + (i+1) : ''}`. -/
def el_record_name (name : String) (i : ℕ) : String :=
  if 0 < i then name ++ " #" ++ toString (i + 1) else name

/-- The loop body of the extraction script for the `i`-th element matched
by a catalog entry: skip when the rect has both dimensions exactly 0, or
when its top exceeds 5000; otherwise emit one style record. -/
def el_records (name : String) (i : ℕ) (el : DomElement) : List StyleRecord :=
  if el.rect.width = 0 ∧ el.rect.height = 0 then []
  else if el.rect.top > 5000 then []
  else
    [{ selector := mk_selector el
       name := el_record_name name i
       text := (py_strip el.text).take 50
       tag := str_to_lower el.tag
       styles := prop_catalog.map (fun p => (p, el.computed p))
       position := { x := js_round el.rect.x, y := js_round el.rect.y,
                     width := js_round el.rect.width, height := js_round el.rect.height } }]

/-- `_extract_live_element_styles`: the page is the external collaborator
answering `querySelectorAll`, embedded as a function from selector string
to matched element list; at most the first 5 matches per catalog entry
are visited (skipped elements still consume slots). -/
def extract_live (page : String → List DomElement) : List StyleRecord :=
  sel_catalog.flatMap (fun c =>
    let els := page c.1
    (List.range (min els.length 5)).flatMap (fun i => el_records c.2 i (els.getD i default)))

/-- `_audit_live_page`: extract the live styles, then run the four defect
checks and build the inventory. -/
def audit_live_page (page : String → List DomElement) (screen_width : Option ℤ) :
    List Defect × List InventoryEntry :=
  (audit_defects (extract_live page) screen_width,
   element_inventory (extract_live page))

/-- An `img` whose bounding rect is fractional in both dimensions
(`0.3 × 0.4`): neither dimension is zero, so the extractor keeps it, but
both dimensions round to 0. -/
def frac_img : DomElement :=
  { tag := "img", text := "", className := "", computed := fun _ => "",
    rect := { x := 0, y := 0, width := 3 / 10, height := 2 / 5, top := 0 } }

def frac_img_page : String → List DomElement :=
  fun s => if s = "img" then [frac_img] else []

/-- The style record the extractor emits for `frac_img` (the else-branch
of `el_records` instantiated at catalog entry `img`, index 0). -/
def frac_rec : StyleRecord :=
  { selector := mk_selector frac_img
    name := el_record_name "Image" 0
    text := (py_strip frac_img.text).take 50
    tag := str_to_lower frac_img.tag
    styles := prop_catalog.map (fun p => (p, frac_img.computed p))
    position := { x := js_round frac_img.rect.x, y := js_round frac_img.rect.y,
                  width := js_round frac_img.rect.width,
                  height := js_round frac_img.rect.height } }

/-- C10 counterexample: the broken/invisible-image check fires (exactly
one defect) on a page whose only element is an `img` with rect
`0.3 × 0.4` — an element with no zero dimension at all — because the
extractor skips only rects with both dimensions exactly 0 while the check
tests the rounded dimensions.  This refutes that the check can only fire
for an img with exactly one zero dimension. -/
theorem c10_counterexample :
    frac_img.rect.width ≠ 0 ∧ frac_img.rect.height ≠ 0 ∧
    (image_check (extract_live frac_img_page)).length = 1 ∧
    element_inventory (extract_live frac_img_page) ≠ [] := by
  have hw : frac_img.rect.width ≠ 0 := by
    show (3 / 10 : ℚ) ≠ 0
    norm_num
  have hh : frac_img.rect.height ≠ 0 := by
    show (2 / 5 : ℚ) ≠ 0
    norm_num
  have hcond : ¬ (frac_img.rect.width = 0 ∧ frac_img.rect.height = 0) := fun h => hw h.1
  have htop : ¬ (frac_img.rect.top > 5000) := by
    show ¬ ((0 : ℚ) > 5000)
    norm_num
  have hext : extract_live frac_img_page = el_records "Image" 0 frac_img := by
    simp [extract_live, sel_catalog, frac_img_page, show List.range 1 = [0] from rfl]
  have hjw : js_round frac_img.rect.width = 0 := by
    show (⌊(3 / 10 : ℚ) + 1 / 2⌋ : ℤ) = 0
    norm_num
  have hr : el_records "Image" 0 frac_img = [frac_rec] := by
    unfold el_records frac_rec
    rw [if_neg hcond, if_neg htop]
  have hrtag : frac_rec.tag = "img" := by decide
  have hrw : frac_rec.position.width = 0 := hjw
  have hic : image_check [frac_rec] = [mk_img_defect frac_rec] := by
    unfold image_check
    simp only [List.flatMap_cons, List.flatMap_nil, List.append_nil]
    rw [if_pos ⟨hrtag, Or.inl hrw⟩]
  refine ⟨hw, hh, ?_, ?_⟩
  · rw [hext, hr, hic]
    rfl
  · rw [hext, hr]
    simp [element_inventory]

/-- C10 amended: the live style extractor silently skips any element
whose bounding rect has both width and height exactly 0, and any element
whose top exceeds 5000, so such elements produce no style record (hence
no defect and no inventory row — the inventory is one row per extracted
record); the broken/invisible-image check fires exactly for the extracted
`img` records whose rounded width or rounded height is 0, which includes
an img whose raw dimensions are both fractional below one half (and hence
nonzero), so firing is not limited to exactly one zero dimension. -/
theorem c10_amended :
    (∀ (name : String) (i : ℕ) (el : DomElement),
      el.rect.width = 0 ∧ el.rect.height = 0 → el_records name i el = []) ∧
    (∀ (name : String) (i : ℕ) (el : DomElement),
      el.rect.top > 5000 → el_records name i el = []) ∧
    (∀ les : List StyleRecord,
      image_check les =
        (les.filter (fun el =>
          decide (el.tag = "img" ∧ (el.position.width = 0 ∨ el.position.height = 0)))).map
          mk_img_defect) ∧
    (∀ les : List StyleRecord, element_inventory les = les.map inventory_entry) := by
  refine ⟨?_, ?_, ?_, fun _ => rfl⟩
  · intro name i el h
    unfold el_records
    rw [if_pos h]
  · intro name i el h
    unfold el_records
    by_cases h0 : el.rect.width = 0 ∧ el.rect.height = 0
    · rw [if_pos h0]
    · rw [if_neg h0, if_pos h]
  · intro les
    exact flatMap_if_singleton les _ mk_img_defect

/-- An element whose rect is entirely zero-sized. -/
def zero_img : DomElement :=
  { tag := "img", text := "", className := "", computed := fun _ => "",
    rect := { x := 0, y := 0, width := 0, height := 0, top := 0 } }

/-- An element below the `top > 5000` cutoff. -/
def deep_el : DomElement :=
  { tag := "div", text := "", className := "", computed := fun _ => "",
    rect := { x := 0, y := 6000, width := 10, height := 10, top := 6000 } }

/-- C10 amended witness: a both-zero img and a too-deep element each
produce no style record. -/
theorem c10_amended_witness :
    el_records "Image" 0 zero_img = [] ∧ el_records "Div Container" 0 deep_el = [] :=
  ⟨c10_amended.1 "Image" 0 zero_img ⟨rfl, rfl⟩,
   c10_amended.2.1 "Div Container" 0 deep_el (by decide)⟩

/-! ## Image differ (`ComparisonService.compare_images`)

The source opens the two image files, converts to RGBA, composites both
onto a transparent canvas of the elementwise-max dimensions, calls the
external `pixelmatch` dependency, and clusters the diff buffer.  File I/O
is elided: the embedding takes the two decoded rasters directly. -/

structure Raster where
  width : ℕ
  height : ℕ
  data : ℕ → ℕ → Pixel

/-- Pasting an image at the origin of a transparent canvas: out-of-bounds
pixels are fully transparent. -/
def composite_at (img : Raster) (x y : ℕ) : Pixel :=
  if x < img.width ∧ y < img.height then img.data x y else ⟨0, 0, 0, 0⟩

def chan_delta (a b : ℕ) : ℕ := max (a - b) (b - a)

def pixel_delta (p q : Pixel) : ℕ :=
  max (chan_delta p.r q.r)
    (max (chan_delta p.g q.g) (max (chan_delta p.b q.b) (chan_delta p.a q.a)))

/-- Modelled from the spec: the per-pixel comparison of the external
`pixelmatch` dependency (not part of this repository), per section 4.1 —
a perceptual pixel-difference test parameterized by `threshold`, the
fraction of the maximum channel delta tolerated before a pixel counts as
mismatched; identical RGBA pixels have zero difference and are never
mismatched, and anti-aliased pixels are included (`includeAA=True` is a
no-op here). -/
def pm_mismatch (p q : Pixel) (threshold : ℚ) : Prop :=
  (pixel_delta p q : ℚ) > threshold * 255

instance (p q : Pixel) (t : ℚ) : Decidable (pm_mismatch p q t) := by
  unfold pm_mismatch; infer_instance

structure DiffResult where
  mismatch : ℕ
  diff : ℕ → ℕ → Pixel
  regions : List Region

def all_pixels (w h : ℕ) : List (ℕ × ℕ) :=
  (List.range h).flatMap (fun y => (List.range w).map (fun x => (x, y)))

/-- `compare_images`: union canvas of the max dimensions, both inputs
composited at the origin over transparency, per-pixel comparison
(mismatched pixels drawn full red and fully opaque, matched pixels left
transparent, per the spec's highlight convention), mismatch count, and
the clustered regions of the resulting diff buffer. -/
def compare_images (img1 img2 : Raster) (threshold : ℚ) : DiffResult :=
  let w := max img1.width img2.width
  let h := max img1.height img2.height
  let diffFn : ℕ → ℕ → Pixel := fun x y =>
    if pm_mismatch (composite_at img1 x y) (composite_at img2 x y) threshold then red_pixel
    else clear_pixel
  { mismatch := (all_pixels w h).countP (fun p =>
      decide (pm_mismatch (composite_at img1 p.1 p.2) (composite_at img2 p.1 p.2) threshold))
    diff := diffFn
    regions := find_mismatch_regions (fun i => diffFn (i % w) (i / w)) w h 50 }

/-- The bounded all-transparent test on a diff buffer. -/
def all_clear (d : ℕ → ℕ → Pixel) (w h : ℕ) : Bool :=
  (List.range h).all (fun y => (List.range w).all (fun x => d x y == clear_pixel))

/-- C9: differ identity — diffing any image against itself, at any
threshold in `[0, 1]`, yields mismatch count 0 and an all-transparent
diff raster. -/
theorem c9_differ_identity (img : Raster) (t : ℚ) (h0 : 0 ≤ t) (h1 : t ≤ 1) :
    (compare_images img img t).mismatch = 0 ∧
    all_clear (compare_images img img t).diff img.width img.height = true := by
  have hpm : ∀ p : Pixel, ¬ pm_mismatch p p t := by
    intro p
    unfold pm_mismatch
    have hd : pixel_delta p p = 0 := by
      unfold pixel_delta chan_delta
      simp
    rw [hd]
    push_cast
    have : (0 : ℚ) ≤ t * 255 := mul_nonneg h0 (by norm_num)
    linarith
  constructor
  · unfold compare_images
    apply List.countP_eq_zero.mpr
    intro a _
    simp [hpm]
  · have hdiff : ∀ x y, (compare_images img img t).diff x y = clear_pixel := by
      intro x y
      show (if pm_mismatch (composite_at img x y) (composite_at img x y) t then red_pixel
        else clear_pixel) = clear_pixel
      rw [if_neg (hpm _)]
    unfold all_clear
    apply List.all_eq_true.mpr
    intro y _
    apply List.all_eq_true.mpr
    intro x _
    rw [hdiff x y]
    rfl

def unit_raster : Raster := { width := 1, height := 1, data := fun _ _ => ⟨1, 2, 3, 4⟩ }

/-- C9 witness: identity diff of a concrete 1 × 1 raster at threshold
0. -/
theorem c9_differ_identity_witness :
    (compare_images unit_raster unit_raster 0).mismatch = 0 ∧
    all_clear (compare_images unit_raster unit_raster 0).diff 1 1 = true :=
  c9_differ_identity unit_raster 0 (le_refl 0) zero_le_one

end ZeplinValidation
